/-
Verification of the inthesoup chart-matching pipeline.

This file gives a shallow embedding, in Lean 4, of the core functions of the
repository (src/data/charts.py and src/data/load_cifp.py) and proves or
refutes the specified properties about them.

Modelling conventions:
  * Python strings are Lean `String`s; positional indexing and slicing are
    expressed through `String.data : List Char`.
  * Python code that can raise an exception (out-of-range single-element
    indexing such as `s[1]`, or `int()` on a non-digit string) is embedded
    as an `Option`-returning function, `none` marking the raised exception.
    Python slices (`s[a:b]`, `s[-2:]`) never raise and are embedded as
    total `take`/`drop` combinations.
  * Python float arithmetic in `dms_to_dd` is embedded over `ℚ`.
-/
import Mathlib

namespace InTheSoup

/-! ## Identifier decoder: `approach_id_to_names` (src/data/charts.py, lines 57-142) -/

/-- The token interpolated for an optional one-character approach suffix:
Python `f" {approach_suffix}" if approach_suffix else ""`. -/
def sfxTok : Option Char → String
  | some c => String.mk [' ', c]
  | none => ""

/-- The runway-suffixed branch of `approach_id_to_names` (second character a
digit): `d` is the full character data of the identifier, `c0` its first
character.  Mirrors lines 63-111 of src/data/charts.py. -/
def runwayNames (c0 : Char) (d : List Char) : List String :=
  -- approach_runway = approach_id[1:4].replace('-', '')
  let approach_runway : List Char := ((d.drop 1).take 3).filter (fun ch => ch ≠ '-')
  -- approach_suffix = approach_id[4] if len(approach_id) > 4 else None
  let approach_suffix : Option Char := d[4]?
  let t := sfxTok approach_suffix
  let rwy_name : String := "RWY " ++ String.mk approach_runway
  if c0 = 'I' ∨ c0 = 'L' then
    ["ILS" ++ t ++ " " ++ rwy_name,
     "ILS OR LOC" ++ t ++ " " ++ rwy_name,
     "ILS" ++ t ++ " OR LOC " ++ rwy_name,
     "ILS OR LOC/DME" ++ t ++ " " ++ rwy_name,
     "ILS OR LOC/NDB" ++ t ++ " " ++ rwy_name,
     "ILS" ++ t ++ " OR LOC" ++ t ++ " " ++ rwy_name,
     "ILS" ++ t ++ " OR LOC/DME" ++ t ++ " " ++ rwy_name,
     "LOC" ++ t ++ " " ++ rwy_name,
     "LOC/DME" ++ t ++ " " ++ rwy_name]
  else if c0 = 'B' then
    ["LOC BC" ++ t ++ " " ++ rwy_name,
     "LOC/DME BC" ++ t ++ " " ++ rwy_name]
  else if c0 = 'R' then
    ["RNAV (GPS)" ++ t ++ " " ++ rwy_name]
  else if c0 = 'H' then
    ["RNAV (RNP)" ++ t ++ " " ++ rwy_name]
  else if c0 = 'P' then
    ["GPS" ++ t ++ " " ++ rwy_name]
  else if c0 = 'S' ∨ c0 = 'D' ∨ c0 = 'V' then
    ["VOR" ++ t ++ " " ++ rwy_name,
     "VOR/DME" ++ t ++ " " ++ rwy_name,
     "VOR" ++ t ++ " OR TACAN" ++ t ++ " " ++ rwy_name,
     "VOR/DME" ++ t ++ " OR TACAN" ++ t ++ " " ++ rwy_name,
     "VOR/DME OR TACAN" ++ t ++ " " ++ rwy_name,
     "VOR/DME" ++ t ++ " OR TACAN " ++ rwy_name,
     "VOR OR GPS" ++ t ++ " " ++ rwy_name,
     "VOR/DME OR GPS" ++ t ++ " " ++ rwy_name]
    ++
    -- if rwy_name[-1] == 'L' or rwy_name[-1] == 'R': two extra candidates
    -- (rwy_name always starts with "RWY " so its data is never empty)
    (match rwy_name.data.getLast? with
     | some ch =>
       if ch = 'L' ∨ ch = 'R' then
         let rwy_name_lr : String := String.mk rwy_name.data.dropLast ++ "L/R"
         ["VOR" ++ t ++ " " ++ rwy_name_lr,
          "VOR/DME" ++ t ++ " " ++ rwy_name_lr]
       else []
     | none => [])
  else if c0 = 'X' then
    ["LDA" ++ t ++ " " ++ rwy_name]
  else if c0 = 'Q' ∨ c0 = 'N' then
    ["NDB" ++ t ++ " " ++ rwy_name,
     "NDB/DME" ++ t ++ " " ++ rwy_name]
  else
    -- print(f'Unknown approach type (1): ...') and fall through
    []

/-- The non-runway branch of `approach_id_to_names` (second character not a
digit).  Mirrors lines 113-140 of src/data/charts.py. -/
def nonRunwayNames (d : List Char) : List String :=
  -- approach_type = approach_id[0:3]
  let approach_type : String := String.mk (d.take 3)
  -- approach_suffix = approach_id[-2:]
  let approach_suffix : String := String.mk (d.drop (d.length - 2))
  if approach_type = "RNV" then
    ["RNAV (GPS)" ++ approach_suffix]
  else if approach_type = "GPS" then
    ["GPS" ++ approach_suffix]
  else if approach_type = "VDM" then
    ["VOR/DME" ++ approach_suffix,
     "VOR/DME OR GPS" ++ approach_suffix]
  else if approach_type = "VOR" then
    ["VOR" ++ approach_suffix,
     "VOR OR TACAN" ++ approach_suffix,
     "VOR OR TACAN OR GPS" ++ approach_suffix]
  else if approach_type = "LBC" then
    ["LOC BC" ++ approach_suffix,
     "LOC/DME BC" ++ approach_suffix]
  else if approach_type = "LDA" then
    ["LDA" ++ approach_suffix,
     "LDA/DME" ++ approach_suffix]
  else if approach_type = "NDB" then
    ["NDB" ++ approach_suffix]
  else if approach_type = "LOC" then
    ["LOC" ++ approach_suffix,
     "LOC/DME" ++ approach_suffix]
  else
    -- print(f'Unknown approach type (2): ...') and fall through
    []

/-- `approach_id_to_names` from src/data/charts.py.  The Python function
starts by evaluating `approach_id[1]`, which raises `IndexError` when the
identifier has fewer than two characters; that exception is the `none`
result here. -/
def approach_id_to_names (approach_id : String) : Option (List String) :=
  match approach_id.data with
  | c0 :: c1 :: _ =>
    -- if second_char >= '0' and second_char <= '9'
    some (if '0' ≤ c1 ∧ c1 ≤ '9' then runwayNames c0 approach_id.data
          else nonRunwayNames approach_id.data)
  | _ => none

/-! ## Chart title normalization (src/data/charts.py, `get_charts`, lines 35-42)

Python `str.find` returns the index of the first occurrence of a pattern
(or -1); `chart_name[:i]` truncates.  We embed titles as `List Char`. -/

/-- `subMatch pat l` holds when `pat` is an initial segment of `l`
(the pattern matches at position 0). -/
def subMatch (pat l : List Char) : Bool := l.take pat.length == pat

/-- `findSub pat l` is the index of the first occurrence of `pat` inside `l`
(Python `l.find(pat)`, with `none` for -1). -/
def findSub (pat : List Char) : List Char → Option Nat
  | [] => if subMatch pat [] then some 0 else none
  | c :: t => if subMatch pat (c :: t) then some 0 else (findSub pat t).map (· + 1)

/-- Truncate `l` at the first occurrence of `pat`, if any
(Python lines 36-38 / 40-42 of src/data/charts.py). -/
def truncAt (pat l : List Char) : List Char :=
  match findSub pat l with
  | none => l
  | some i => l.take i

/-- The characters of the pattern `" (CAT"`. -/
def catPat : List Char := [' ', '(', 'C', 'A', 'T']

/-- The characters of the pattern `" (SA"`. -/
def saPat : List Char := [' ', '(', 'S', 'A']

/-- Title normalization exactly as implemented in `get_charts`
(src/data/charts.py lines 35-42): truncate at the first `" (CAT"`, then
search the *truncated* title for `" (SA"` and truncate again. -/
def normalize_chart_name (l : List Char) : List Char :=
  truncAt saPat (truncAt catPat l)

/-- The reference semantics stated by the spec (two truncations computed
independently on the original title; the earlier cut point wins). -/
def normalize_chart_name_spec (l : List Char) : List Char :=
  match findSub catPat l, findSub saPat l with
  | none, none => l
  | some c, none => l.take c
  | none, some s => l.take s
  | some c, some s => l.take (min c s)

/-! ## Chart merge (src/data/charts.py, `merge_charts`, lines 145-184) -/

/-- One row of the chart catalog dataframe built by `get_charts`. -/
structure ChartEntry where
  location : String
  chart_name : String
  pdf_name : String
deriving DecidableEq

/-- One row of the FAF dataframe passed to `merge_charts`: the two fields the
merge reads, the two fields it writes, and the remaining columns untouched
by it (`rest`). -/
structure FafRow where
  Airport_Identifier : String
  SIDSTARApproach_Identifier : String
  Approach_Name : Option String
  PDF_Name : Option String
  rest : List (String × String)
deriving DecidableEq

/-- The dataframe filter on lines 159-162 of src/data/charts.py: catalog rows
with the row's airport and an exactly equal chart title. -/
def chartFilter (df_charts : List ChartEntry) (airport name : String) : List ChartEntry :=
  df_charts.filter (fun e => e.location == airport && e.chart_name == name)

/-- The candidate loop on lines 156-165: scan candidate names in order and
stop at the first whose filter is non-empty, keeping that filter's first row.
The result is `none` exactly when the Python loop leaves `chart` as `None`
or as an empty dataframe. -/
def resolveChart (df_charts : List ChartEntry) (airport : String) : List String → Option ChartEntry
  | [] => none
  | n :: rest =>
    match chartFilter df_charts airport n with
    | [] => resolveChart df_charts airport rest
    | e :: _ => some e

/-- Lines 167-173: write `Approach_Name`/`PDF_Name` from the matched catalog
row, or `None`/`None` when there was no match. -/
def setChart (faf : FafRow) (c : Option ChartEntry) : FafRow :=
  match c with
  | some e => { faf with Approach_Name := some e.chart_name, PDF_Name := some e.pdf_name }
  | none => { faf with Approach_Name := none, PDF_Name := none }

/-- `merge_charts` from src/data/charts.py.  The function iterates the rows
of (a copy of) `df_faf`, decoding each approach identifier; a decoder
exception on any row aborts the whole call (`none`).  Otherwise every input
row yields exactly one output row in order. -/
def merge_charts : List FafRow → List ChartEntry → Option (List FafRow)
  | [], _ => some []
  | faf :: rest, df_charts =>
    match approach_id_to_names faf.SIDSTARApproach_Identifier with
    | none => none
    | some names =>
      match merge_charts rest df_charts with
      | none => none
      | some out =>
        some (setChart faf (resolveChart df_charts faf.Airport_Identifier names) :: out)

/-- A merged row with both chart fields attached. -/
def isResolved (r : FafRow) : Bool := r.Approach_Name.isSome && r.PDF_Name.isSome

/-- A merged row explicitly marked unresolved (both chart fields null);
these are the rows counted on lines 180-182 of src/data/charts.py. -/
def isUnresolved (r : FafRow) : Bool := r.Approach_Name.isNone && r.PDF_Name.isNone

/-! ## CIFP record extraction (src/data/load_cifp.py, `parse_cifp`, lines 104-126) -/

/-- Classification a record receives from the field loop on lines 108-115:
airport-reference, final-approach-fix, or neither. -/
inductive RecordClass where
  | apt
  | faf
  | neither
deriving DecidableEq

/-- One parsed CIFP record: the ordered (field name, field value) pairs
produced by the ARINC-424 reader. -/
structure CifpRecord where
  fields : List (String × String)
deriving DecidableEq

/-- The field loop of `parse_cifp` (lines 108-115): walk the fields in order
and stop at the first that is either `Section Code = 'PA'` (airport) or
`Waypoint Description Code = 'E  F'` (FAF). -/
def classifyFields : List (String × String) → RecordClass
  | [] => .neither
  | (n, v) :: rest =>
    if n = "Section Code" ∧ v = "PA" then .apt
    else if n = "Waypoint Description Code" ∧ v = "E  F" then .faf
    else classifyFields rest

/-- The record loop of `parse_cifp` (lines 104-121): append each record to the
airport list or the FAF list according to its classification.  Returns
`(apts, fafs)`. -/
def extract_records (records : List CifpRecord) : List CifpRecord × List CifpRecord :=
  records.foldl
    (fun acc r =>
      match classifyFields r.fields with
      | .apt => (acc.1 ++ [r], acc.2)
      | .faf => (acc.1, acc.2 ++ [r])
      | .neither => acc)
    ([], [])

/-- Look a named field up in a record (first match of the name). -/
def getField (r : CifpRecord) (name : String) : Option String :=
  (r.fields.find? (fun f => f.1 == name)).map (fun f => f.2)

/-- An airport-reference record used to exhibit duplicate-identifier
behaviour of `parse_cifp`. -/
def dupAptRecord : CifpRecord :=
  ⟨[("Section Code", "PA"), ("Airport ICAO Identifier", "KAAA")]⟩

/-! ## DMS conversion (src/data/load_cifp.py, `dms_to_dd`, lines 19-34) -/

/-- Decimal value of a digit string, most significant first. -/
def digitsToNat (l : List Char) : Nat :=
  l.foldl (fun a c => a * 10 + (c.toNat - '0'.toNat)) 0

/-- Python `int(s)` restricted to the shapes that occur here: succeeds on a
non-empty all-digit string, raises `ValueError` (`none`) otherwise — in
particular on any string containing a decimal point. -/
def pyInt (l : List Char) : Option Nat :=
  if l ≠ [] ∧ l.all (fun c => c.isDigit) then some (digitsToNat l) else none

/-- `dms_to_dd` from src/data/load_cifp.py: hemisphere sign, right-justify
the digits to width 9 with `'0'`, then split as DDD/MM/SSss and combine.
`none` models the exceptions the Python code can raise (`IndexError` on an
empty string, `ValueError` from `int()` on a non-digit slice). -/
def dms_to_dd (dms : String) : Option ℚ :=
  match dms.data with
  | [] => none
  | c0 :: rest =>
    let sign : ℚ := if c0 = 'N' ∨ c0 = 'E' then 1 else -1
    -- dms = dms[1:].rjust(9, '0')
    let padded : List Char := List.replicate (9 - rest.length) '0' ++ rest
    match pyInt (padded.take 3), pyInt ((padded.drop 3).take 2), pyInt ((padded.drop 5).take 4) with
    | some d, some m, some s =>
      some (sign * ((d : ℚ) + (m : ℚ) / 60 + ((s : ℚ) / 100) / 3600))
    | _, _, _ => none

/-! ## Helper lemmas -/

/-- Evaluation helper for `dms_to_dd`: once the three `int()` calls are known
to succeed, the result is the signed degree/minute/second combination. -/
lemma dms_to_dd_some (s : String) (c0 : Char) (rest : List Char) (hs : s.data = c0 :: rest)
    (d m sec : Nat)
    (hd : pyInt ((List.replicate (9 - rest.length) '0' ++ rest).take 3) = some d)
    (hm : pyInt (((List.replicate (9 - rest.length) '0' ++ rest).drop 3).take 2) = some m)
    (hsec : pyInt (((List.replicate (9 - rest.length) '0' ++ rest).drop 5).take 4) = some sec) :
    dms_to_dd s = some ((if c0 = 'N' ∨ c0 = 'E' then (1 : ℚ) else -1) *
      ((d : ℚ) + (m : ℚ) / 60 + ((sec : ℚ) / 100) / 3600)) := by
  unfold dms_to_dd
  rw [hs]
  simp only [hd, hm, hsec]

/-- Python `int()` succeeds on a non-empty all-digit string. -/
lemma pyInt_digits (l : List Char) (hne : l ≠ []) (hall : l.all (fun c => c.isDigit) = true) :
    pyInt l = some (digitsToNat l) := by
  rw [pyInt, if_pos ⟨hne, hall⟩]

/-- A Boolean that is not false is true. -/
lemma bool_ne_false {b : Bool} (h : ¬ b = false) : b = true := by
  cases b
  · exact absurd rfl h
  · rfl

/-- Characterization of `findSub` succeeding: the pattern matches at `i` and
at no earlier position. -/
lemma findSub_some_iff (pat : List Char) (l : List Char) (i : Nat) :
    findSub pat l = some i ↔
      (subMatch pat (l.drop i) = true ∧ ∀ j, j < i → subMatch pat (l.drop j) = false) := by
  induction l generalizing i with
  | nil =>
    simp only [findSub, List.drop_nil]
    by_cases h : subMatch pat [] = true
    · rw [if_pos h]
      constructor
      · intro hc
        have h0 : i = 0 := by injection hc with hc; omega
        subst h0
        exact ⟨h, fun j hj => absurd hj (Nat.not_lt_zero j)⟩
      · rintro ⟨-, h2⟩
        cases i with
        | zero => rfl
        | succ n => rw [h2 0 (Nat.succ_pos n)] at h; cases h
    · rw [if_neg h]
      constructor
      · intro hc; cases hc
      · rintro ⟨h1, -⟩; exact absurd h1 h
  | cons a t ih =>
    simp only [findSub]
    by_cases h : subMatch pat (a :: t) = true
    · rw [if_pos h]
      constructor
      · intro hc
        have h0 : i = 0 := by injection hc with hc; omega
        subst h0
        exact ⟨by simpa using h, fun j hj => absurd hj (Nat.not_lt_zero j)⟩
      · rintro ⟨-, h2⟩
        cases i with
        | zero => rfl
        | succ n =>
          have h0 := h2 0 (Nat.succ_pos n)
          rw [List.drop_zero] at h0
          rw [h0] at h; cases h
    · rw [if_neg h]
      cases i with
      | zero =>
        constructor
        · intro hc
          rcases Option.map_eq_some'.mp hc with ⟨n, -, hn⟩
          omega
        · rintro ⟨h1, -⟩
          rw [List.drop_zero] at h1; exact absurd h1 h
      | succ n =>
        constructor
        · intro hc
          rcases Option.map_eq_some'.mp hc with ⟨m, hm, hmn⟩
          have hmn' : m = n := by omega
          rw [hmn'] at hm
          rcases (ih n).mp hm with ⟨h1, h2⟩
          refine ⟨by simpa using h1, ?_⟩
          intro j hj
          cases j with
          | zero =>
            rw [List.drop_zero]
            cases hsm : subMatch pat (a :: t)
            · rfl
            · exact absurd hsm h
          | succ k =>
            have hk : k < n := by omega
            simpa using h2 k hk
        · rintro ⟨h1, h2⟩
          have ht1 : subMatch pat (t.drop n) = true := by simpa using h1
          have ht2 : ∀ k, k < n → subMatch pat (t.drop k) = false := by
            intro k hk
            simpa using h2 (k + 1) (by omega)
          rw [(ih n).mpr ⟨ht1, ht2⟩]
          rfl

/-- Characterization of `findSub` failing: the pattern matches nowhere. -/
lemma findSub_none_iff (pat : List Char) (l : List Char) :
    findSub pat l = none ↔ ∀ j, subMatch pat (l.drop j) = false := by
  induction l with
  | nil =>
    simp only [findSub, List.drop_nil]
    by_cases h : subMatch pat [] = true
    · rw [if_pos h]
      constructor
      · intro hc; cases hc
      · intro hall; rw [hall 0] at h; cases h
    · rw [if_neg h]
      constructor
      · intro _ j
        cases hsm : subMatch pat []
        · rfl
        · exact absurd hsm h
      · intro _; rfl
  | cons a t ih =>
    simp only [findSub]
    by_cases h : subMatch pat (a :: t) = true
    · rw [if_pos h]
      constructor
      · intro hc; cases hc
      · intro hall
        have h0 := hall 0
        rw [List.drop_zero] at h0
        rw [h0] at h; cases h
    · rw [if_neg h]
      constructor
      · intro hc j
        have ht : findSub pat t = none := by
          cases hft : findSub pat t with
          | none => rfl
          | some m => rw [hft] at hc; cases hc
        cases j with
        | zero =>
          rw [List.drop_zero]
          cases hsm : subMatch pat (a :: t)
          · rfl
          · exact absurd hsm h
        | succ n => simpa using (ih.mp ht) n
      · intro hall
        have ht : ∀ j, subMatch pat (t.drop j) = false := by
          intro j
          simpa using hall (j + 1)
        rw [ih.mpr ht]
        rfl

/-- A successful `subMatch` pins down the list's characters along the
pattern. -/
lemma subMatch_getElem (pat l : List Char) (i k : Nat)
    (h : subMatch pat (l.drop i) = true) (hk : k < pat.length) :
    l[i + k]? = pat[k]? := by
  rw [subMatch, beq_iff_eq] at h
  have h' := congrArg (fun m => m[k]?) h
  simp only at h'
  rw [List.getElem?_take_of_lt hk, List.getElem?_drop] at h'
  exact h'

/-- The patterns `" (SA"` and `" (CAT"` cannot overlap: when `" (SA"` occurs
strictly before `" (CAT"`, the whole `" (SA"` occurrence ends at or before
the `" (CAT"` cut. -/
lemma sa_cat_no_overlap (l : List Char) (s c : Nat)
    (hs : subMatch saPat (l.drop s) = true) (hc : subMatch catPat (l.drop c) = true)
    (hlt : s < c) : s + 4 ≤ c := by
  by_contra hcon
  have hcat0 : l[c + 0]? = catPat[0]? := subMatch_getElem _ _ _ _ hc (by decide)
  rw [Nat.add_zero] at hcat0
  have hd : c = s + 1 ∨ c = s + 2 ∨ c = s + 3 := by omega
  rcases hd with h | h | h
  · have hsa : l[s + 1]? = saPat[1]? := subMatch_getElem _ _ _ _ hs (by decide)
    rw [h] at hcat0
    rw [hcat0] at hsa
    simp [catPat, saPat] at hsa
  · have hsa : l[s + 2]? = saPat[2]? := subMatch_getElem _ _ _ _ hs (by decide)
    rw [h] at hcat0
    rw [hcat0] at hsa
    simp [catPat, saPat] at hsa
  · have hsa : l[s + 3]? = saPat[3]? := subMatch_getElem _ _ _ _ hs (by decide)
    rw [h] at hcat0
    rw [hcat0] at hsa
    simp [catPat, saPat] at hsa

/-- Matching inside a `take` is the same as matching in the full list with
the occurrence contained in the kept region. -/
lemma subMatch_take (pat l : List Char) (c j : Nat) (hp : pat ≠ []) :
    subMatch pat ((l.take c).drop j) = true ↔
      (subMatch pat (l.drop j) = true ∧ j + pat.length ≤ c) := by
  have hppos : 0 < pat.length := List.length_pos.mpr hp
  rw [List.drop_take]
  constructor
  · intro h
    rw [subMatch, beq_iff_eq, List.take_take] at h
    have hlen := congrArg List.length h
    simp only [List.length_take] at hlen
    have hple : pat.length ≤ c - j := by omega
    have hmin : min pat.length (c - j) = pat.length := by omega
    rw [hmin] at h
    refine ⟨?_, by omega⟩
    rw [subMatch, beq_iff_eq]
    exact h
  · rintro ⟨h, hle⟩
    rw [subMatch, beq_iff_eq] at h ⊢
    rw [List.take_take]
    have hmin : min pat.length (c - j) = pat.length := by omega
    rw [hmin]
    exact h

/-- When the original title has no `" (SA"` occurrence, neither does any
`" (CAT"`-truncated form of it. -/
lemma findSub_take_none (l : List Char) (c : Nat)
    (h : findSub saPat l = none) : findSub saPat (l.take c) = none := by
  rw [findSub_none_iff]
  intro j
  by_contra hj
  have hj' : subMatch saPat ((l.take c).drop j) = true := bool_ne_false hj
  have hm := (subMatch_take saPat l c j (by decide)).mp hj'
  have hf := (findSub_none_iff saPat l).mp h j
  rw [hm.1] at hf
  cases hf

/-- Claim C5: the chained truncation implemented in `get_charts` (truncate at
the first `" (CAT"`, then search the truncated title for `" (SA"`) computes
exactly the reference semantics of two truncations taken independently on the
original title with the earlier cut point winning. -/
theorem normalize_chart_name_eq_spec (l : List Char) :
    normalize_chart_name l = normalize_chart_name_spec l := by
  rcases h1 : findSub catPat l with _ | c
  · rcases h2 : findSub saPat l with _ | s
    · simp [normalize_chart_name, normalize_chart_name_spec, truncAt, h1, h2]
    · simp [normalize_chart_name, normalize_chart_name_spec, truncAt, h1, h2]
  · rcases h2 : findSub saPat l with _ | s
    · -- " (CAT" cut at c, " (SA" nowhere: the truncated title has no " (SA" either
      have hnone := findSub_take_none l c h2
      simp [normalize_chart_name, normalize_chart_name_spec, truncAt, h1, h2, hnone]
    · have hcat := (findSub_some_iff catPat l c).mp h1
      have hsa := (findSub_some_iff saPat l s).mp h2
      by_cases hcs : s < c
      · -- " (SA" strictly first: it survives the " (CAT" truncation intact
        have hov : s + 4 ≤ c := sa_cat_no_overlap l s c hsa.1 hcat.1 hcs
        have hfind : findSub saPat (l.take c) = some s := by
          rw [findSub_some_iff]
          constructor
          · refine (subMatch_take saPat l c s (by decide)).mpr ⟨hsa.1, ?_⟩
            have hlen : saPat.length = 4 := rfl
            omega
          · intro j hj
            by_contra hjf
            have hj' : subMatch saPat ((l.take c).drop j) = true := bool_ne_false hjf
            have hm := (subMatch_take saPat l c j (by decide)).mp hj'
            have hf := hsa.2 j hj
            rw [hm.1] at hf
            cases hf
        simp only [normalize_chart_name, truncAt, h1, hfind, normalize_chart_name_spec, h2]
        rw [List.take_take, Nat.min_comm]
      · -- " (CAT" first (or equal): no " (SA" survives inside the kept region
        have hnone : findSub saPat (l.take c) = none := by
          rw [findSub_none_iff]
          intro j
          by_contra hjf
          have hj' : subMatch saPat ((l.take c).drop j) = true := bool_ne_false hjf
          obtain ⟨hm1, hm2⟩ := (subMatch_take saPat l c j (by decide)).mp hj'
          have hlen : saPat.length = 4 := rfl
          rw [hlen] at hm2
          have hjs : j < s := by omega
          have hf := hsa.2 j hjs
          rw [hm1] at hf
          cases hf
        simp only [normalize_chart_name, truncAt, h1, hnone, normalize_chart_name_spec, h2]
        have hmin : min c s = c := by omega
        rw [hmin]

/-- The decoder returns normally on every identifier of at least two
characters. -/
lemma approach_id_to_names_total (s : String) (h : 2 ≤ s.length) :
    ∃ names, approach_id_to_names s = some names := by
  have hlen : s.length = s.data.length := rfl
  rcases hd : s.data with _ | ⟨c0, _ | ⟨c1, rest⟩⟩
  · rw [hlen, hd] at h; simp at h
  · rw [hlen, hd] at h; simp at h
  · unfold approach_id_to_names
    rw [hd]
    exact ⟨_, rfl⟩

/-- `List.any` is invariant under permutation of the list. -/
lemma any_perm {α : Type} (l l' : List α) (p : α → Bool) (h : l.Perm l') :
    l.any p = l'.any p := by
  cases hl : l.any p
  · cases hl' : l'.any p
    · rfl
    · exfalso
      obtain ⟨x, hx, hpx⟩ := List.any_eq_true.mp hl'
      have hxl : x ∈ l := h.mem_iff.mpr hx
      exact absurd hpx (List.any_eq_false.mp hl x hxl)
  · obtain ⟨x, hx, hpx⟩ := List.any_eq_true.mp hl
    exact (List.any_eq_true.mpr ⟨x, h.mem_iff.mp hx, hpx⟩).symm

/-- The chart the candidate loop attaches carries exactly the first candidate
title for which some catalog row matches airport and title. -/
lemma resolveChart_name (df_charts : List ChartEntry) (airport : String) (names : List String) :
    (resolveChart df_charts airport names).map (fun e => e.chart_name) =
      names.find? (fun n =>
        df_charts.any (fun e => e.location == airport && e.chart_name == n)) := by
  induction names with
  | nil => rfl
  | cons n rest ih =>
    rcases hf : chartFilter df_charts airport n with _ | ⟨e, es⟩
    · have hany : df_charts.any (fun e => e.location == airport && e.chart_name == n) = false := by
        rw [List.any_eq_false]
        intro e he
        have hnil := List.filter_eq_nil_iff.mp hf
        simpa using hnil e he
      rw [resolveChart, hf]
      rw [List.find?_cons_of_neg _ (by simp [hany])]
      exact ih
    · have he : e ∈ chartFilter df_charts airport n := by
        rw [hf]; exact List.mem_cons_self e es
      have hmem := List.mem_filter.mp he
      have hpred := hmem.2
      have hname : e.chart_name = n := by
        have hb := (Bool.and_eq_true _ _).mp hpred
        exact beq_iff_eq.mp hb.2
      have hany : df_charts.any (fun e => e.location == airport && e.chart_name == n) = true :=
        List.any_eq_true.mpr ⟨e, hmem.1, hpred⟩
      rw [resolveChart, hf]
      rw [List.find?_cons_of_pos _ (by simpa using hany)]
      simp [hname]

/-- A chart attached by the candidate loop comes from the catalog and has the
row's airport. -/
lemma resolveChart_mem (df_charts : List ChartEntry) (airport : String) (names : List String)
    (e : ChartEntry) (h : resolveChart df_charts airport names = some e) :
    e ∈ df_charts ∧ e.location = airport := by
  induction names with
  | nil => cases h
  | cons n rest ih =>
    rw [resolveChart] at h
    rcases hf : chartFilter df_charts airport n with _ | ⟨e', es⟩
    · rw [hf] at h
      exact ih h
    · rw [hf] at h
      injection h with h
      subst h
      have he : e' ∈ chartFilter df_charts airport n := by
        rw [hf]; exact List.mem_cons_self e' es
      have hmem := List.mem_filter.mp he
      have hb := (Bool.and_eq_true _ _).mp hmem.2
      exact ⟨hmem.1, beq_iff_eq.mp hb.1⟩

/-- Structure of a successful `merge_charts` run: one output row per input
row, in order, each obtained by `setChart` from the decoded candidates. -/
lemma merge_charts_get (df_faf : List FafRow) (df_charts : List ChartEntry) (out : List FafRow)
    (hout : merge_charts df_faf df_charts = some out) :
    out.length = df_faf.length ∧
    ∀ (i : Nat) (faf : FafRow), df_faf[i]? = some faf →
      ∃ names, approach_id_to_names faf.SIDSTARApproach_Identifier = some names ∧
        out[i]? = some (setChart faf (resolveChart df_charts faf.Airport_Identifier names)) := by
  induction df_faf generalizing out with
  | nil =>
    simp only [merge_charts, Option.some.injEq] at hout
    subst hout
    refine ⟨rfl, ?_⟩
    intro i faf h
    simp at h
  | cons faf rest ih =>
    simp only [merge_charts] at hout
    rcases hn : approach_id_to_names faf.SIDSTARApproach_Identifier with _ | names
    · rw [hn] at hout; cases hout
    · simp only [hn] at hout
      rcases hm : merge_charts rest df_charts with _ | out'
      · rw [hm] at hout; cases hout
      · simp only [hm] at hout
        injection hout with hout
        subst hout
        obtain ⟨hlen, hget⟩ := ih out' hm
        constructor
        · simp [hlen]
        · intro i f hf
          cases i with
          | zero =>
            rw [List.getElem?_cons_zero] at hf
            injection hf with hf
            subst hf
            exact ⟨names, hn, by rw [List.getElem?_cons_zero]⟩
          | succ n =>
            rw [List.getElem?_cons_succ] at hf
            obtain ⟨names', hns, hg⟩ := hget n f hf
            exact ⟨names', hns, by rw [List.getElem?_cons_succ]; exact hg⟩

/-- A well-formed FAF table (every identifier at least two characters) always
merges successfully. -/
lemma merge_charts_total (df_faf : List FafRow) (df_charts : List ChartEntry)
    (h : ∀ r ∈ df_faf, 2 ≤ r.SIDSTARApproach_Identifier.length) :
    ∃ out, merge_charts df_faf df_charts = some out := by
  induction df_faf with
  | nil => exact ⟨[], rfl⟩
  | cons faf rest ih =>
    obtain ⟨names, hnames⟩ :=
      approach_id_to_names_total _ (h faf (List.mem_cons_self faf rest))
    obtain ⟨out, hout⟩ := ih (fun r hr => h r (List.mem_cons_of_mem faf hr))
    refine ⟨setChart faf (resolveChart df_charts faf.Airport_Identifier names) :: out, ?_⟩
    simp only [merge_charts, hnames, hout]

/-- `setChart` writes only the two chart fields. -/
lemma setChart_fields (faf : FafRow) (c : Option ChartEntry) :
    (setChart faf c).Airport_Identifier = faf.Airport_Identifier ∧
    (setChart faf c).SIDSTARApproach_Identifier = faf.SIDSTARApproach_Identifier ∧
    (setChart faf c).rest = faf.rest := by
  cases c <;> simp [setChart]

/-- The title attached by `setChart` is the title of the chart found (if any). -/
lemma setChart_name (faf : FafRow) (c : Option ChartEntry) :
    (setChart faf c).Approach_Name = c.map (fun e => e.chart_name) := by
  cases c <;> rfl

/-- A merged row is either fully resolved or fully unresolved. -/
lemma setChart_resolved_or_unresolved (faf : FafRow) (c : Option ChartEntry) :
    (isResolved (setChart faf c) = true ∧ isUnresolved (setChart faf c) = false) ∨
    (isResolved (setChart faf c) = false ∧ isUnresolved (setChart faf c) = true) := by
  cases c
  · right; simp [setChart, isResolved, isUnresolved]
  · left; simp [setChart, isResolved, isUnresolved]

/-- Counting two mutually exclusive, jointly exhaustive predicates covers the
whole list. -/
lemma countP_add_countP {α : Type} (l : List α) (p q : α → Bool)
    (h : ∀ x ∈ l, (p x = true ∧ q x = false) ∨ (p x = false ∧ q x = true)) :
    l.countP p + l.countP q = l.length := by
  induction l with
  | nil => rfl
  | cons a t ih =>
    have ht := ih (fun x hx => h x (List.mem_cons_of_mem a hx))
    rcases h a (List.mem_cons_self a t) with ⟨hp, hq⟩ | ⟨hp, hq⟩ <;>
      simp [List.countP_cons, hp, hq] <;> omega

/-- Every row of a successful merge output is a `setChart` image of the
corresponding input row. -/
lemma merge_charts_mem (df_faf : List FafRow) (df_charts : List ChartEntry) (out : List FafRow)
    (hout : merge_charts df_faf df_charts = some out) (r : FafRow) (hr : r ∈ out) :
    ∃ faf c, r = setChart faf c := by
  obtain ⟨hlen, hget⟩ := merge_charts_get df_faf df_charts out hout
  obtain ⟨i, hi⟩ := List.mem_iff_getElem?.mp hr
  obtain ⟨hilt, -⟩ := List.getElem?_eq_some_iff.mp hi
  have hif : i < df_faf.length := by omega
  obtain ⟨names, -, hsc⟩ := hget i df_faf[i] (List.getElem?_eq_getElem hif)
  rw [hi] at hsc
  injection hsc with hsc
  exact ⟨df_faf[i], _, hsc⟩

/-- Unrolling the record loop of `parse_cifp` from an arbitrary pair of
accumulators. -/
lemma extract_records_go (records : List CifpRecord) (a b : List CifpRecord) :
    records.foldl
      (fun acc r =>
        match classifyFields r.fields with
        | .apt => (acc.1 ++ [r], acc.2)
        | .faf => (acc.1, acc.2 ++ [r])
        | .neither => acc)
      (a, b) =
    (a ++ records.filter (fun r => classifyFields r.fields == .apt),
     b ++ records.filter (fun r => classifyFields r.fields == .faf)) := by
  induction records generalizing a b with
  | nil => simp
  | cons r rest ih =>
    rw [List.foldl_cons]
    rcases hc : classifyFields r.fields with _ | _ | _ <;>
      simp only [hc, List.filter_cons] <;>
      simp [ih, hc, List.append_assoc]

/-! ## Claim theorems -/

/-- Claim C3 counterexample: `decode("RNVA")` does not return
`["RNAV (GPS)A"]` — the trailing-suffix slice `approach_id[-2:]` of `"RNVA"`
is `"VA"`, not `"A"`. -/
theorem approach_id_rnva_counterexample :
    approach_id_to_names "RNVA" ≠ some ["RNAV (GPS)A"] := by decide

/-- Claim C3 (amended): `decode("RNVA")` returns the single-element list
`["RNAV (GPS)VA"]`: the family template concatenated exactly with the
trailing two-character suffix, with no injected separators. -/
theorem approach_id_rnva : approach_id_to_names "RNVA" = some ["RNAV (GPS)VA"] := by decide

/-- Claim C4 counterexample: `decode` is not total over all input identifier
strings — on the empty string the Python code raises `IndexError` at
`approach_id[1]` (modelled as `none`) instead of returning an empty
candidate list. -/
theorem approach_id_empty_counterexample : approach_id_to_names "" = none := by decide

/-- Claim C4 (amended): for every identifier of at least two characters the
decoder returns normally, and when the type letter (runway shape) or the
three-letter type code (non-runway shape) is not in the fixed tables it
returns the empty candidate list; identifiers shorter than two characters
raise instead. -/
theorem approach_id_total_unknown (c0 c1 : Char) (rest : List Char) (s : String)
    (hs : s.data = c0 :: c1 :: rest) :
    (∃ names, approach_id_to_names s = some names) ∧
    (('0' ≤ c1 ∧ c1 ≤ '9') →
      c0 ∉ (['I', 'L', 'B', 'R', 'H', 'P', 'S', 'D', 'V', 'X', 'Q', 'N'] : List Char) →
      approach_id_to_names s = some []) ∧
    (¬('0' ≤ c1 ∧ c1 ≤ '9') →
      String.mk ((c0 :: c1 :: rest).take 3) ∉
        (["RNV", "GPS", "VDM", "VOR", "LBC", "LDA", "NDB", "LOC"] : List String) →
      approach_id_to_names s = some []) := by
  refine ⟨?_, ?_, ?_⟩
  · unfold approach_id_to_names
    rw [hs]
    exact ⟨_, rfl⟩
  · intro hdigit hmem
    simp only [List.mem_cons, not_or] at hmem
    obtain ⟨hI, hL, hB, hR, hH, hP, hS, hD, hV, hX, hQ, hN, -⟩ := hmem
    simp only [approach_id_to_names, hs]
    rw [if_pos hdigit]
    simp [runwayNames, hI, hL, hB, hR, hH, hP, hS, hD, hV, hX, hQ, hN]
  · intro hndigit hmem
    simp only [List.mem_cons, not_or] at hmem
    obtain ⟨h1, h2, h3, h4, h5, h6, h7, h8, -⟩ := hmem
    simp only [approach_id_to_names, hs]
    rw [if_neg hndigit]
    simp only [List.take_succ_cons] at h1 h2 h3 h4 h5 h6 h7 h8
    simp [nonRunwayNames, h1, h2, h3, h4, h5, h6, h7, h8]

/-- Claim C4 witness: a concrete unknown runway-shaped type letter yields the
empty candidate list. -/
theorem approach_id_total_unknown_witness : approach_id_to_names "Z9" = some [] :=
  (approach_id_total_unknown 'Z' '9' [] "Z9" rfl).2.1 (by decide) (by decide)

/-- Claim C6: `decode("I09L")` has the plain ILS form as its first candidate,
and `decode("S18L")` (VOR type, runway ending in `L`) additionally contains a
candidate whose runway token is `"18L/R"`. -/
theorem approach_id_i09l_s18l :
    (approach_id_to_names "I09L").map List.head? = some (some "ILS RWY 09L") ∧
    ∃ l, approach_id_to_names "S18L" = some l ∧ "VOR RWY 18L/R" ∈ l := by
  constructor
  · decide
  · exact ⟨_, rfl, by decide⟩

/-- Claim C7 counterexample: two airport-reference records with the same
airport identifier produce two airport rows — `parse_cifp` does not
aggregate to one `Airport` per unique identifier, applies no last-write-wins
policy, and reports nothing. -/
theorem extract_records_duplicate :
    (extract_records [dupAptRecord, dupAptRecord]).1 = [dupAptRecord, dupAptRecord] ∧
    getField dupAptRecord "Airport ICAO Identifier" = some "KAAA" := by
  constructor
  · decide
  · decide

/-- Claim C7 (amended): `parse_cifp` emits one airport row per
airport-reference record and one FAF row per final-approach-fix record, in
input order with duplicates preserved; records with duplicate airport
identifiers are neither merged nor reported. -/
theorem extract_records_filter (records : List CifpRecord) :
    extract_records records =
      (records.filter (fun r => classifyFields r.fields == .apt),
       records.filter (fun r => classifyFields r.fields == .faf)) := by
  unfold extract_records
  rw [extract_records_go]
  simp

/-- Claim C9 counterexample: the spec's example inputs contain a decimal
point, on which Python's `int()` raises `ValueError` — both calls fail
instead of returning normally. -/
theorem dms_to_dd_dot_counterexample :
    dms_to_dd "N375213.40" = none ∧ dms_to_dd "W1224413.00" = none := by
  constructor
  · decide
  · decide

/-- Claim C9 (amended): on the dot-free fixed-width CIFP forms of the spec's
examples, `dms_to_dd("N37521340")` equals `37 + 52/60 + 13.40/3600` exactly
and `dms_to_dd("W122441300")` returns a negative value. -/
theorem dms_to_dd_examples :
    dms_to_dd "N37521340" = some (37 + 52 / 60 + (1340 / 100) / 3600) ∧
    ∃ q, dms_to_dd "W122441300" = some q ∧ q < 0 := by
  constructor
  · rw [dms_to_dd_some "N37521340" 'N' "37521340".data rfl 37 52 1340
      (by decide) (by decide) (by decide)]
    norm_num
  · refine ⟨-(122 + 44 / 60 + (1300 / 100) / 3600), ?_, by norm_num⟩
    rw [dms_to_dd_some "W122441300" 'W' "122441300".data rfl 122 44 1300
      (by decide) (by decide) (by decide)]
    norm_num
    decide

/-- Claim C1: on a table of well-formed `ApproachFix` rows (every coded
identifier has the at-least-two-character shape of the data model),
`merge_charts` returns normally with exactly one output row per input row,
each either resolved (both chart fields set) or unresolved (both null), so
that `count(resolved) + count(unresolved)` equals the input row count. -/
theorem merge_charts_coverage (df_faf : List FafRow) (df_charts : List ChartEntry)
    (h : ∀ r ∈ df_faf, 2 ≤ r.SIDSTARApproach_Identifier.length) :
    ∃ out, merge_charts df_faf df_charts = some out ∧
      out.length = df_faf.length ∧
      out.countP isResolved + out.countP isUnresolved = df_faf.length ∧
      ∀ r ∈ out, (isResolved r = true ∧ isUnresolved r = false) ∨
        (isResolved r = false ∧ isUnresolved r = true) := by
  obtain ⟨out, hout⟩ := merge_charts_total df_faf df_charts h
  have hlen := (merge_charts_get df_faf df_charts out hout).1
  have hxor : ∀ r ∈ out, (isResolved r = true ∧ isUnresolved r = false) ∨
      (isResolved r = false ∧ isUnresolved r = true) := by
    intro r hr
    obtain ⟨faf, c, hrc⟩ := merge_charts_mem df_faf df_charts out hout r hr
    rw [hrc]
    exact setChart_resolved_or_unresolved faf c
  refine ⟨out, hout, hlen, ?_, hxor⟩
  rw [countP_add_countP out isResolved isUnresolved hxor, hlen]

/-- Claim C1 witness: a one-row table with an unmatched identifier merges to
one explicitly unresolved row. -/
theorem merge_charts_coverage_witness :
    ∃ out, merge_charts [⟨"KAAA", "I09L", none, none, []⟩] [] = some out ∧
      out.length = 1 ∧
      out.countP isResolved + out.countP isUnresolved = 1 ∧
      ∀ r ∈ out, (isResolved r = true ∧ isUnresolved r = false) ∨
        (isResolved r = false ∧ isUnresolved r = true) :=
  merge_charts_coverage [⟨"KAAA", "I09L", none, none, []⟩] [] (by decide)

/-- Claim C2: for each input row of a successful merge, the attached title is
the first decoded candidate for which some catalog row has the same airport
identifier and an exactly equal title; the attached filename comes from a
catalog row matching that candidate; and the chosen title is invariant under
any permutation of the catalog rows. -/
theorem merge_charts_first_candidate
    (df_faf : List FafRow) (df_charts df_charts' : List ChartEntry) (out out' : List FafRow)
    (hout : merge_charts df_faf df_charts = some out)
    (hout' : merge_charts df_faf df_charts' = some out')
    (hperm : df_charts.Perm df_charts')
    (i : Nat) (faf : FafRow) (hi : df_faf[i]? = some faf) :
    ∃ names r r',
      approach_id_to_names faf.SIDSTARApproach_Identifier = some names ∧
      out[i]? = some r ∧ out'[i]? = some r' ∧
      r.Approach_Name = names.find? (fun n =>
        df_charts.any (fun e => e.location == faf.Airport_Identifier && e.chart_name == n)) ∧
      (∀ n, r.Approach_Name = some n →
        ∃ e, e ∈ df_charts ∧ e.location = faf.Airport_Identifier ∧ e.chart_name = n ∧
          r.PDF_Name = some e.pdf_name) ∧
      r'.Approach_Name = r.Approach_Name := by
  obtain ⟨-, hget⟩ := merge_charts_get df_faf df_charts out hout
  obtain ⟨-, hget'⟩ := merge_charts_get df_faf df_charts' out' hout'
  obtain ⟨names, hn, hr⟩ := hget i faf hi
  obtain ⟨names', hn', hr'⟩ := hget' i faf hi
  rw [hn] at hn'
  injection hn' with hnn
  rw [← hnn] at hr'
  refine ⟨names, setChart faf (resolveChart df_charts faf.Airport_Identifier names),
    setChart faf (resolveChart df_charts' faf.Airport_Identifier names),
    hn, hr, hr', ?_, ?_, ?_⟩
  · rw [setChart_name, resolveChart_name]
  · intro n hname
    rcases hres : resolveChart df_charts faf.Airport_Identifier names with _ | e
    · rw [setChart_name, hres] at hname
      cases hname
    · rw [setChart_name, hres] at hname
      injection hname with hname
      obtain ⟨hmem, hloc⟩ := resolveChart_mem df_charts faf.Airport_Identifier names e hres
      exact ⟨e, hmem, hloc, hname, rfl⟩
  · rw [setChart_name, setChart_name, resolveChart_name, resolveChart_name]
    have hfun :
        (fun n => df_charts'.any
          (fun e => e.location == faf.Airport_Identifier && e.chart_name == n)) =
        (fun n => df_charts.any
          (fun e => e.location == faf.Airport_Identifier && e.chart_name == n)) := by
      funext n
      exact (any_perm df_charts df_charts' _ hperm).symm
    rw [hfun]

/-- Claim C2 witness: with a one-entry catalog, the row for `"I09L"` resolves
to the first candidate `"ILS RWY 09L"` with that entry's filename. -/
theorem merge_charts_first_candidate_witness :
    ∃ names r r',
      approach_id_to_names "I09L" = some names ∧
      ([(⟨"KAAA", "I09L", some "ILS RWY 09L", some "I09.PDF", []⟩ : FafRow)])[0]? = some r ∧
      ([(⟨"KAAA", "I09L", some "ILS RWY 09L", some "I09.PDF", []⟩ : FafRow)])[0]? = some r' ∧
      r.Approach_Name = names.find? (fun n =>
        [(⟨"KAAA", "ILS RWY 09L", "I09.PDF"⟩ : ChartEntry)].any
          (fun e => e.location == "KAAA" && e.chart_name == n)) ∧
      (∀ n, r.Approach_Name = some n →
        ∃ e, e ∈ [(⟨"KAAA", "ILS RWY 09L", "I09.PDF"⟩ : ChartEntry)] ∧
          e.location = "KAAA" ∧ e.chart_name = n ∧
          r.PDF_Name = some e.pdf_name) ∧
      r'.Approach_Name = r.Approach_Name :=
  merge_charts_first_candidate
    [⟨"KAAA", "I09L", none, none, []⟩]
    [⟨"KAAA", "ILS RWY 09L", "I09.PDF"⟩] [⟨"KAAA", "ILS RWY 09L", "I09.PDF"⟩]
    [⟨"KAAA", "I09L", some "ILS RWY 09L", some "I09.PDF", []⟩]
    [⟨"KAAA", "I09L", some "ILS RWY 09L", some "I09.PDF", []⟩]
    (by decide) (by decide) (List.Perm.refl _) 0 ⟨"KAAA", "I09L", none, none, []⟩ rfl

/-- Claim C8: for every well-formed hemisphere-plus-digits coordinate string
(digits only, at most the 9-digit DDDMMSSss width, shorter strings
left-padded with zeros), `dms_to_dd` returns
`sign * (degrees + minutes/60 + (hundredths_of_seconds/100)/3600)` with sign
`+1` for `N`/`E` and `-1` for `S`/`W`. -/
theorem dms_to_dd_formula (c0 : Char) (rest : List Char)
    (_hc : c0 = 'N' ∨ c0 = 'S' ∨ c0 = 'E' ∨ c0 = 'W')
    (hdig : rest.all (fun c => c.isDigit) = true)
    (hlen : rest.length ≤ 9) :
    dms_to_dd (String.mk (c0 :: rest)) =
      some ((if c0 = 'N' ∨ c0 = 'E' then (1 : ℚ) else -1) *
        ((digitsToNat ((List.replicate (9 - rest.length) '0' ++ rest).take 3) : ℚ) +
          (digitsToNat (((List.replicate (9 - rest.length) '0' ++ rest).drop 3).take 2) : ℚ) / 60 +
          ((digitsToNat (((List.replicate (9 - rest.length) '0' ++ rest).drop 5).take 4) : ℚ) / 100) /
            3600)) := by
  have hplen : (List.replicate (9 - rest.length) '0' ++ rest).length = 9 := by
    simp only [List.length_append, List.length_replicate]
    omega
  have hpall : (List.replicate (9 - rest.length) '0' ++ rest).all (fun c => c.isDigit) = true := by
    rw [List.all_append, hdig]
    simp only [Bool.and_true, List.all_eq_true]
    intro x hx
    rw [(List.mem_replicate.mp hx).2]
    decide
  have hallsub : ∀ m : List Char,
      List.Sublist m (List.replicate (9 - rest.length) '0' ++ rest) →
      m.all (fun c => c.isDigit) = true := by
    intro m hm
    rw [List.all_eq_true]
    intro x hx
    exact (List.all_eq_true).mp hpall x (hm.subset hx)
  apply dms_to_dd_some _ c0 rest rfl
  · apply pyInt_digits
    · have : ((List.replicate (9 - rest.length) '0' ++ rest).take 3).length = 3 := by
        rw [List.length_take, hplen]
        decide
      intro hnil
      rw [hnil] at this
      cases this
    · exact hallsub _ (List.take_sublist _ _)
  · apply pyInt_digits
    · have : (((List.replicate (9 - rest.length) '0' ++ rest).drop 3).take 2).length = 2 := by
        rw [List.length_take, List.length_drop, hplen]
        decide
      intro hnil
      rw [hnil] at this
      cases this
    · exact hallsub _ ((List.take_sublist _ _).trans (List.drop_sublist _ _))
  · apply pyInt_digits
    · have : (((List.replicate (9 - rest.length) '0' ++ rest).drop 5).take 4).length = 4 := by
        rw [List.length_take, List.length_drop, hplen]
        decide
      intro hnil
      rw [hnil] at this
      cases this
    · exact hallsub _ ((List.take_sublist _ _).trans (List.drop_sublist _ _))

/-- Claim C8 witness: the formula evaluated at the latitude
`"N37521340"`. -/
theorem dms_to_dd_formula_witness :
    dms_to_dd (String.mk ('N' :: "37521340".data)) =
      some (37 + 52 / 60 + (1340 / 100) / 3600) := by
  rw [dms_to_dd_formula 'N' "37521340".data (Or.inl rfl) (by decide) (by decide)]
  norm_num [show digitsToNat ['0', '3', '7'] = 37 from by decide,
    show digitsToNat ['5', '2'] = 52 from by decide,
    show digitsToNat ['1', '3', '4', '0'] = 1340 from by decide]

/-- Claim C10: `merge_charts` reads its inputs from copies and writes only
the two chart columns: in a successful merge, every output row agrees with
its input row on every field other than `Approach_Name` and `PDF_Name`. -/
theorem merge_charts_frame (df_faf : List FafRow) (df_charts : List ChartEntry) (out : List FafRow)
    (hout : merge_charts df_faf df_charts = some out)
    (i : Nat) (faf : FafRow) (hi : df_faf[i]? = some faf) :
    ∃ r, out[i]? = some r ∧
      r.Airport_Identifier = faf.Airport_Identifier ∧
      r.SIDSTARApproach_Identifier = faf.SIDSTARApproach_Identifier ∧
      r.rest = faf.rest := by
  obtain ⟨-, hget⟩ := merge_charts_get df_faf df_charts out hout
  obtain ⟨names, -, hr⟩ := hget i faf hi
  exact ⟨_, hr, setChart_fields faf _⟩

/-- Claim C10 witness: the untouched columns of a concrete row survive the
merge unchanged. -/
theorem merge_charts_frame_witness :
    ∃ r, ([(⟨"KBBB", "R27", none, none, [("Altitude", "3000")]⟩ : FafRow)])[0]? = some r ∧
      r.Airport_Identifier = "KBBB" ∧
      r.SIDSTARApproach_Identifier = "R27" ∧
      r.rest = [("Altitude", "3000")] :=
  merge_charts_frame [⟨"KBBB", "R27", none, none, [("Altitude", "3000")]⟩] []
    [⟨"KBBB", "R27", none, none, [("Altitude", "3000")]⟩] (by decide)
    0 ⟨"KBBB", "R27", none, none, [("Altitude", "3000")]⟩ rfl

end InTheSoup
